import Mathlib

/-!
Shallow embedding of the parmacl command-line parser (src/parmacl/src) in Lean 4.

Strings are modelled as `List Char` (the parser walks `str::chars()`).
Rust `usize` counters are modelled as `Nat` (they only ever increase by 1
from 0, so overflow is unreachable in any run the theorems below touch).
A Rust panic (`unreachable!`, or a byte slice that is out of bounds or not
on a character boundary) is modelled as the explicit outcome
`PResult.panicked`, so the embedded functions are total.
-/

namespace Parmacl

/-- Embeds `ParseErrorTypeId` from src/parmacl/src/parse_error_type_id.rs. -/
inductive ParseErrorTypeId where
  | quotedParamNotFollowedByWhitespaceChar
  | noMatchForOptionWithValue
  | quotedOptionValueNotFollowedByWhitespaceChar
  | escapeCharacterAtEndOfLine
  | escapedCharacterInOptionValueCannotBeEscaped
  | escapeCharacterAtEndOfOptionValue
  | paramMissingClosingQuoteCharacter
  | escapedCharacterInParamCannotBeEscaped
  | escapeCharacterAtEndOfParam
  | optionCodeMissingDoubleAnnouncer
  | optionCodeCannotContainQuoteChar
  | optionCodeCannotContainEscapeChar
  | optionMissingValue
  | optionValueCannotStartWithOptionAnnouncer
  | optionValueMissingClosingQuoteCharacter
  | unmatchedOption
  | unmatchedParam
  deriving DecidableEq, Repr

/-- Embeds `ParseErrorTypeId::get_default_text` from
src/parmacl/src/parse_error_type_id.rs. -/
def ParseErrorTypeId.getDefaultText : ParseErrorTypeId → List Char
  | .quotedParamNotFollowedByWhitespaceChar => "Quoted parameter not followed by whitespace character".toList
  | .noMatchForOptionWithValue => "No match for option with value".toList
  | .quotedOptionValueNotFollowedByWhitespaceChar => "Quoted option value not followed by whitespace character".toList
  | .escapeCharacterAtEndOfLine => "Escape character is at end of line".toList
  | .escapedCharacterInOptionValueCannotBeEscaped => "Escaped character in option value cannot be escaped".toList
  | .escapeCharacterAtEndOfOptionValue => "Escape character is at end of option value".toList
  | .paramMissingClosingQuoteCharacter => "Parameter missing closing quote character".toList
  | .escapedCharacterInParamCannotBeEscaped => "Escaped character in parameter cannot be escaped".toList
  | .escapeCharacterAtEndOfParam => "Escape character is at end of parameter".toList
  | .optionCodeMissingDoubleAnnouncer => "Option code missing double announcer".toList
  | .optionCodeCannotContainQuoteChar => "Option code cannot contain quote character".toList
  | .optionCodeCannotContainEscapeChar => "Option code cannot contain escape character".toList
  | .optionValueCannotStartWithOptionAnnouncer => "Option value cannot start with option announcer".toList
  | .optionMissingValue => "Option missing value".toList
  | .optionValueMissingClosingQuoteCharacter => "Option value missing closing quote character".toList
  | .unmatchedOption => "Option not matched".toList
  | .unmatchedParam => "Parameter not matched".toList

/-- Embeds the `ParseError` struct from src/parmacl/src/parse_error.rs. -/
structure ParseError where
  typeId : ParseErrorTypeId
  lineCharIndex : Nat
  argIndex : Nat
  optionIndex : Option Nat
  optionCode : Option (List Char)
  paramIndex : Option Nat
  paramValueText : List Char
  deriving DecidableEq, Repr

/-- Embeds `ParseError::new_option` from src/parmacl/src/parse_error.rs. -/
def ParseError.newOption (typeId : ParseErrorTypeId) (lineCharIdx argIdx optionIdx : Nat)
    (optionCode paramValueText : List Char) : ParseError :=
  { typeId := typeId
    lineCharIndex := lineCharIdx
    argIndex := argIdx
    optionIndex := some optionIdx
    optionCode := some optionCode
    paramIndex := none
    paramValueText := paramValueText }

/-- Embeds `ParseError::new_param` from src/parmacl/src/parse_error.rs. -/
def ParseError.newParam (typeId : ParseErrorTypeId) (lineCharIdx argIdx paramIdx : Nat)
    (paramValueText : List Char) : ParseError :=
  { typeId := typeId
    lineCharIndex := lineCharIdx
    argIndex := argIdx
    optionIndex := none
    optionCode := none
    paramIndex := some paramIdx
    paramValueText := paramValueText }

/-- Decimal digits of a Nat, fuel-driven so that it reduces by `rfl`.
Models Rust `usize::to_string` (plain decimal, no sign). -/
def natToCharsAux : Nat → Nat → List Char → List Char
  | 0, _, acc => acc
  | fuel + 1, n, acc =>
    let d := Char.ofNat (48 + n % 10)
    if n < 10 then d :: acc else natToCharsAux fuel (n / 10) (d :: acc)

/-- Decimal rendering of a Nat, as used by `to_string` on the index fields in
the `Display` implementation of src/parmacl/src/parse_error.rs. -/
def natToChars (n : Nat) : List Char :=
  natToCharsAux (n + 1) n []

/-- Embeds `impl Display for ParseError` (`fmt`) from
src/parmacl/src/parse_error.rs. Note the source computes
`id_text = self.type_id.get_default_text()` but uses it only to size the
string buffer; the rendered text therefore starts directly with `" [l:"`,
and the whole accumulated text is wrapped in one pair of parentheses. -/
def ParseError.display (e : ParseError) : List Char :=
  let errorText := " [l:".toList ++ natToChars e.lineCharIndex ++ " a:".toList ++ natToChars e.argIndex
  let errorText :=
    match e.optionIndex with
    | some optionIdx =>
      let errorText := errorText ++ " o:".toList ++ natToChars optionIdx
      match e.optionCode with
      | some optionCode => errorText ++ " c:".toList ++ optionCode ++ [Char.ofNat 34]
      | none => errorText
    | none =>
      match e.paramIndex with
      | some paramIdx =>
        errorText ++ " p:".toList ++ natToChars paramIdx ++ " t:".toList ++ e.paramValueText ++ [Char.ofNat 34]
      | none => errorText
  let errorText := errorText ++ [']']
  ['('] ++ errorText ++ [')']

/-- The canonical display form stated by the specification (section 6):
`(<message>) [l:<char> a:<arg> o:<idx> c:"<code>"]` for options and the
`p:<idx> t:"<text>"]` tail for params. This definition follows the words of
the spec, to be compared with `ParseError.display`, which follows the code. -/
def ParseError.specClaimedDisplay (e : ParseError) : List Char :=
  let core := ['('] ++ e.typeId.getDefaultText ++ [')'] ++ " [l:".toList ++ natToChars e.lineCharIndex
    ++ " a:".toList ++ natToChars e.argIndex
  match e.optionIndex, e.paramIndex with
  | some optionIdx, _ =>
    core ++ " o:".toList ++ natToChars optionIdx ++ " c:".toList ++ [Char.ofNat 34]
      ++ (e.optionCode.getD []) ++ [Char.ofNat 34] ++ [']']
  | none, some paramIdx =>
    core ++ " p:".toList ++ natToChars paramIdx ++ " t:".toList ++ [Char.ofNat 34]
      ++ e.paramValueText ++ [Char.ofNat 34] ++ [']']
  | none, none => core ++ [']']

/-- Embeds the literal-text mode of `RegexOrText`
(src/parmacl/src/regex_or_text.rs, constructor `with_text`): a text to
compare with, an optional case-sensitivity override, and the precomputed
uppercase copy represented by `uppercaseText` below. The regex mode is not
exercised by any claim and is not part of this embedding. -/
structure RegexOrText where
  text : List Char
  overrideCaseSensitive : Option Bool := none
  deriving DecidableEq, Repr

/-- The precomputed `uppercase_text` field of `RegexOrText`
(`self.text.to_uppercase()` in `update`), restricted to the ASCII uppercase
map of Lean `Char.toUpper`, which agrees with Rust on all inputs used by the
theorems in this file. -/
def RegexOrText.uppercaseText (r : RegexOrText) : List Char :=
  r.text.map Char.toUpper

/-- Embeds `RegexOrText::is_match` from src/parmacl/src/regex_or_text.rs
(text mode): the override, when present, replaces the caller flag; matching
compares directly when case-sensitive, else compares uppercased forms. -/
def RegexOrText.isMatch (r : RegexOrText) (value : List Char) (caseSensitive : Bool) : Bool :=
  let caseSensitive :=
    match r.overrideCaseSensitive with
    | some o => o
    | none => caseSensitive
  if caseSensitive then
    value == r.text
  else
    value.map Char.toUpper == r.uppercaseText

/-- Embeds `OptionHasValue` from src/parmacl/src/matcher.rs. -/
inductive OptionHasValue where
  | always
  | ifPossible
  | never
  deriving DecidableEq, Repr

/-- Embeds `MatchArgTypeId` from src/parmacl/src/matcher.rs. -/
inductive MatchArgTypeId where
  | option
  | param
  deriving DecidableEq, Repr

/-- Embeds the `Matcher` struct from src/parmacl/src/matcher.rs, restricted
to the fields the parse functions read. The opaque tag values (`option_tag`,
`param_tag`), `index` and `help` are never consulted while parsing and are
omitted; `name` is kept for identification. -/
structure Matcher where
  name : List Char := []
  argIndices : Option (List Nat) := none
  argType : Option MatchArgTypeId := none
  optionIndices : Option (List Nat) := none
  optionCodes : Option (List RegexOrText) := none
  optionHasValue : OptionHasValue := .never
  optionValueCanStartWithOptionAnnouncer : Bool := false
  paramIndices : Option (List Nat) := none
  valueText : Option RegexOrText := none
  deriving DecidableEq, Repr

/-- The `any_matcher` field every `Parser` is constructed with
(`Matcher::new("")` in src/parmacl/src/parser.rs): all filters unset,
`option_has_value` at its default `Never`. -/
def anyMatcher : Matcher := {}

/-- Embeds `EscapeableLogicalChar` from src/parmacl/src/parser.rs. -/
inductive EscapeableLogicalChar where
  | escape
  | quote
  | whitespace
  | optionAnnouncer
  | optionValueAnnouncer
  | all
  deriving DecidableEq, Repr

/-- Embeds the configuration fields of the `Parser` struct from
src/parmacl/src/parser.rs together with its matcher list. -/
structure Parser where
  quoteChars : List Char
  optionAnnouncerChars : List Char
  optionCodesCaseSensitive : Bool
  optionCodeCanBeEmpty : Bool
  multiCharOptionCodeRequiresDoubleAnnouncer : Bool
  optionValueAnnouncerChars : List Char
  optionValuesCaseSensitive : Bool
  paramsCaseSensitive : Bool
  embedQuoteCharWithDouble : Bool
  escapeChar : Option Char
  escapeableLogicalChars : List EscapeableLogicalChar
  escapeableChars : List Char
  firstArgIsBinary : Bool
  parseTerminateChars : List Char
  matchers : List Matcher
  deriving DecidableEq, Repr

/-- Embeds `Parser::new` (the line-parsing defaults
`DEFAULT_LINE_*` in src/parmacl/src/parser.rs) with an empty matcher list. -/
def Parser.new : Parser :=
  { quoteChars := [Char.ofNat 34]
    optionAnnouncerChars := ['-']
    optionCodesCaseSensitive := false
    optionCodeCanBeEmpty := false
    multiCharOptionCodeRequiresDoubleAnnouncer := false
    optionValueAnnouncerChars := [' ']
    optionValuesCaseSensitive := false
    paramsCaseSensitive := false
    embedQuoteCharWithDouble := true
    escapeChar := none
    escapeableLogicalChars := [.escape, .quote]
    escapeableChars := []
    firstArgIsBinary := true
    parseTerminateChars := []
    matchers := [] }

/-- Embeds `ArgParseState` from src/parmacl/src/parse_state.rs. -/
inductive ArgParseState where
  | waitBinary
  | waitOptionOrParam
  | inParam
  | inParamPossibleEndQuote
  | inParamEscaped
  | inOption
  deriving DecidableEq, Repr

/-- Embeds `OptionParseState` from src/parmacl/src/parse_state.rs. -/
inductive OptionParseState where
  | inCode
  | waitOptionValue
  | inValue
  | inValuePossibleEndQuote
  | inValueEscaped
  deriving DecidableEq, Repr

/-- Embeds the `ParseState` struct from src/parmacl/src/parse_state.rs. -/
structure ParseState where
  multiCharOptionCodeRequiresDoubleAnnouncer : Bool
  lineOrEnvArg : List Char
  lineLen : Nat
  argParseState : ArgParseState
  optionParseState : OptionParseState
  envLineApproximateCharIdx : Nat
  envArgIdx : Nat
  lineOrEnvArgCharIdx : Nat
  argStartCharIdx : Nat
  argStartEnvLineApproximateCharIdx : Nat
  optionCodeStartLineCharIdx : Nat
  argQuoteChar : Char
  optionAnnouncerChar : Char
  optionCode : List Char
  optionValueAnnouncerIsAmbiguous : Bool
  currentOptionValueMayBeParam : Bool
  valueQuoted : Bool
  valueBldr : List Char
  argCount : Nat
  optionCount : Nat
  paramCount : Nat
  currentParamIsBinary : Bool
  deriving DecidableEq, Repr

/-- Embeds `ParseState::new` from src/parmacl/src/parse_state.rs. -/
def ParseState.new (lineOrEnvArg : List Char) (firstArgIsBinary : Bool)
    (multiCharOptionCodeRequiresDoubleAnnouncer : Bool) : ParseState :=
  { multiCharOptionCodeRequiresDoubleAnnouncer := multiCharOptionCodeRequiresDoubleAnnouncer
    lineOrEnvArg := lineOrEnvArg
    lineLen := lineOrEnvArg.length
    argParseState := if firstArgIsBinary then .waitBinary else .waitOptionOrParam
    optionParseState := .inCode
    envLineApproximateCharIdx := 0
    envArgIdx := 0
    lineOrEnvArgCharIdx := 0
    argStartCharIdx := 0
    argStartEnvLineApproximateCharIdx := 0
    optionCodeStartLineCharIdx := 0
    argQuoteChar := Char.ofNat 0
    optionAnnouncerChar := Char.ofNat 0
    optionCode := []
    optionValueAnnouncerIsAmbiguous := false
    currentOptionValueMayBeParam := false
    valueQuoted := false
    valueBldr := []
    argCount := 0
    optionCount := 0
    paramCount := 0
    currentParamIsBinary := false }

/-- Embeds `ParseState::create_option_error` from
src/parmacl/src/parse_state.rs. -/
def ParseState.createOptionError (ps : ParseState) (errorId : ParseErrorTypeId) : ParseError :=
  ParseError.newOption errorId ps.envLineApproximateCharIdx ps.argCount ps.optionCount
    ps.optionCode ps.valueBldr

/-- Embeds `ParseState::create_param_error` from
src/parmacl/src/parse_state.rs. Note the source passes `self.option_count`
(not `param_count`) as the `param_idx` argument of `ParseError::new_param`. -/
def ParseState.createParamError (ps : ParseState) (errorId : ParseErrorTypeId) : ParseError :=
  ParseError.newParam errorId ps.envLineApproximateCharIdx ps.argCount ps.optionCount ps.valueBldr

/-- Embeds `EnvChar` from src/src/env_char.rs (the module `mod env_char`
declared by src/parmacl/src/lib.rs; only src/src carries the file). -/
inductive EnvChar where
  | separator
  | unicode (c : Char)
  deriving DecidableEq, Repr

/-- Embeds `EnvChar::try_get_unicode_non_whitespace` from
src/src/env_char.rs. As in the source, the unicode arm returns the character
unconditionally; no whitespace test is performed. -/
def EnvChar.tryGetUnicodeNonWhitespace : EnvChar → Option Char
  | .separator => none
  | .unicode c => some c

/-- Embeds the `OptionProperties` struct from src/parmacl/src/arg.rs (the
matcher reference is carried by value). -/
structure OptionProperties where
  matcher : Matcher
  charIndex : Nat
  envLineApproximateCharIndex : Nat
  argIndex : Nat
  envArgIndex : Nat
  optionIndex : Nat
  code : List Char
  valueText : Option (List Char)
  deriving DecidableEq, Repr

/-- Embeds the `ParamProperties` struct from src/parmacl/src/arg.rs. -/
structure ParamProperties where
  matcher : Matcher
  charIndex : Nat
  envLineApproximateCharIndex : Nat
  argIndex : Nat
  envArgIndex : Nat
  paramIndex : Nat
  valueText : List Char
  deriving DecidableEq, Repr

/-- Embeds the `BinaryProperties` struct from src/parmacl/src/arg.rs. -/
structure BinaryProperties where
  matcher : Matcher
  charIndex : Nat
  envLineApproximateCharIndex : Nat
  argIndex : Nat
  envArgIndex : Nat
  valueText : List Char
  deriving DecidableEq, Repr

/-- Embeds the `Arg` enum from src/parmacl/src/arg.rs. -/
inductive Arg where
  | binary (properties : BinaryProperties)
  | option (properties : OptionProperties)
  | param (properties : ParamProperties)
  deriving DecidableEq, Repr

/-- Outcome of an embedded parse step: success, a `ParseError` result, or a
Rust panic (`unreachable!`, or a string slice that is out of bounds or not
on a character boundary). -/
inductive PResult (α : Type) where
  | ok (val : α)
  | err (e : ParseError)
  | panicked
  deriving DecidableEq, Repr

instance : Monad PResult where
  pure := .ok
  bind r f :=
    match r with
    | .ok a => f a
    | .err e => .err e
    | .panicked => .panicked

/-- Embeds `ValueAnnounced` from src/parmacl/src/parser.rs. -/
inductive ValueAnnounced where
  | definitely
  | ambiguous
  | not
  deriving DecidableEq, Repr

/-- Embeds `OptionHasValueBasedOnFirstChar` from src/parmacl/src/parser.rs. -/
inductive OptionHasValueBasedOnFirstChar where
  | must
  | possibly
  | mustNot
  deriving DecidableEq, Repr

/-- Number of bytes of the UTF-8 encoding of a character, used to give Rust
byte-indexed string slicing its exact semantics on a `List Char`. -/
def charUtf8Size (c : Char) : Nat :=
  c.utf8Size

/-- Drop exactly `n` bytes from the front of a character list; `none` when
`n` overruns the list or falls inside the encoding of a character (the
Rust slice panic). -/
def dropBytes : List Char → Nat → Option (List Char)
  | s, 0 => some s
  | [], _ + 1 => none
  | c :: rest, n + 1 =>
    if charUtf8Size c ≤ n + 1 then dropBytes rest (n + 1 - charUtf8Size c) else none

/-- Take exactly `n` bytes from the front of a character list; `none` when
`n` overruns the list or falls inside the encoding of a character. -/
def takeBytes : List Char → Nat → Option (List Char)
  | _, 0 => some []
  | [], _ + 1 => none
  | c :: rest, n + 1 =>
    if charUtf8Size c ≤ n + 1 then
      match takeBytes rest (n + 1 - charUtf8Size c) with
      | some cs => some (c :: cs)
      | none => none
    else none

/-- The Rust byte slice `&s[a..b]`: `none` models the panic on `a > b`, an
out-of-range bound, or a bound that is not a character boundary. -/
def byteSlice (s : List Char) (a b : Nat) : Option (List Char) :=
  if a ≤ b then
    match dropBytes s a with
    | some rest => takeBytes rest (b - a)
    | none => none
  else none

/-- Embeds `ParseState::set_option_code` from src/parmacl/src/parse_state.rs.
The source slices `line_or_env_arg` with byte-indexed ranges whose bounds
are character counts; `byteSlice` reproduces that, with `PResult.panicked`
for the slice panic. The double-announcer validation is reproduced exactly
as written, including `announcer_is_one_char_only` being computed as
`raw_option_iterator.next() != None`. -/
def ParseState.setOptionCode (ps : ParseState) (optionalEndingIndex : Option Nat) :
    PResult ParseState :=
  let endingIndex := optionalEndingIndex.getD ps.lineLen
  match byteSlice ps.lineOrEnvArg ps.optionCodeStartLineCharIdx endingIndex with
  | none => .panicked
  | some rawOptionCode =>
    match rawOptionCode with
    | [] => .ok { ps with optionCode := [] }
    | firstChar :: restChars =>
      if !ps.multiCharOptionCodeRequiresDoubleAnnouncer then
        .ok { ps with optionCode := rawOptionCode }
      else
        let firstCharIsAnnouncer := firstChar == ps.optionAnnouncerChar
        let announcerIsOneCharOnly := !restChars.isEmpty
        if announcerIsOneCharOnly then
          if firstCharIsAnnouncer then
            .ok { ps with optionCode := [] }
          else
            .ok { ps with optionCode := rawOptionCode }
        else
          let ps := { ps with optionCode := rawOptionCode }
          if firstCharIsAnnouncer then
            .ok ps
          else
            .err (ps.createOptionError .optionCodeMissingDoubleAnnouncer)

/-- Embeds `Parser::can_char_be_escaped` from src/parmacl/src/parser.rs. -/
def canCharBeEscaped (p : Parser) (ps : ParseState) (unicodeChar : Char) : Bool :=
  p.escapeableLogicalChars.any (fun logicalChar =>
    match logicalChar with
    | .escape => p.escapeChar == some unicodeChar
    | .quote => ps.valueQuoted && unicodeChar == ps.argQuoteChar
    | .whitespace => unicodeChar.isWhitespace
    | .optionAnnouncer => p.optionAnnouncerChars.contains unicodeChar
    | .optionValueAnnouncer => p.optionValueAnnouncerChars.contains unicodeChar
    | .all => true)
  || p.escapeableChars.contains unicodeChar

/-- Embeds `Parser::initialise_option_parsing` from src/parmacl/src/parser.rs. -/
def initialiseOptionParsing (ps : ParseState) (unicodeChar : Char) : ParseState :=
  { ps with
    optionParseState := .inCode
    optionAnnouncerChar := unicodeChar
    argStartCharIdx := ps.lineOrEnvArgCharIdx
    argStartEnvLineApproximateCharIdx := ps.envLineApproximateCharIdx
    optionCodeStartLineCharIdx := ps.lineOrEnvArgCharIdx + 1 }

/-- Embeds `Parser::initialise_param_parsing` from src/parmacl/src/parser.rs. -/
def initialiseParamParsing (p : Parser) (ps : ParseState) (unicodeChar : Char)
    (isBinary : Bool) : ParseState :=
  let valueQuoted := p.quoteChars.contains unicodeChar
  { ps with
    valueBldr := if valueQuoted then [] else [unicodeChar]
    argStartCharIdx := ps.lineOrEnvArgCharIdx
    argStartEnvLineApproximateCharIdx := ps.envLineApproximateCharIdx
    valueQuoted := valueQuoted
    argQuoteChar := if valueQuoted then unicodeChar else ps.argQuoteChar
    currentParamIsBinary := isBinary }

/-- Embeds `Parser::initialise_option_value_parsing` from
src/parmacl/src/parser.rs. -/
def initialiseOptionValueParsing (p : Parser) (ps : ParseState) (unicodeChar : Char) :
    ParseState :=
  let valueQuoted := p.quoteChars.contains unicodeChar
  { ps with
    valueBldr := if valueQuoted then [] else [unicodeChar]
    valueQuoted := valueQuoted
    argQuoteChar := if valueQuoted then unicodeChar else ps.argQuoteChar }

/-- Embeds `Parser::try_match_index` from src/parmacl/src/parser.rs. -/
def tryMatchIndex (index : Nat) (matcherIndices : Option (List Nat)) : Bool :=
  match matcherIndices with
  | some indices => indices.contains index
  | none => true

/-- Embeds `Parser::try_match_arg_type` from src/parmacl/src/parser.rs. -/
def tryMatchArgType (value : MatchArgTypeId) (matcherValue : Option MatchArgTypeId) : Bool :=
  match matcherValue with
  | some v => v == value
  | none => true

/-- Embeds `Parser::try_match_option_code` from src/parmacl/src/parser.rs
(matching uses `option_codes_case_sensitive`). -/
def tryMatchOptionCode (p : Parser) (code : List Char)
    (matcherCodes : Option (List RegexOrText)) : Bool :=
  match matcherCodes with
  | some codes => codes.any (fun matcherCode => matcherCode.isMatch code p.optionCodesCaseSensitive)
  | none => true

/-- Embeds `Parser::try_match_value_text` from src/parmacl/src/parser.rs. -/
def tryMatchValueText (valueText : List Char) (matcherValueText : Option RegexOrText)
    (caseSensitive : Bool) : Bool :=
  match matcherValueText with
  | some r => r.isMatch valueText caseSensitive
  | none => true

/-- Embeds `Parser::try_match_option_excluding_value` from
src/parmacl/src/parser.rs. -/
def tryMatchOptionExcludingValue (p : Parser) (ps : ParseState) (matcher : Matcher) : Bool :=
  tryMatchIndex ps.argCount matcher.argIndices
  && tryMatchArgType .option matcher.argType
  && tryMatchIndex ps.optionCount matcher.optionIndices
  && tryMatchOptionCode p ps.optionCode matcher.optionCodes

/-- Embeds `Parser::try_match_param` from src/parmacl/src/parser.rs. -/
def tryMatchParam (p : Parser) (ps : ParseState) (matcher : Matcher) : Bool :=
  tryMatchIndex ps.argCount matcher.argIndices
  && tryMatchArgType .param matcher.argType
  && tryMatchIndex ps.paramCount matcher.paramIndices
  && tryMatchValueText ps.valueBldr matcher.valueText p.paramsCaseSensitive

/-- Embeds `Parser::try_match_option` from src/parmacl/src/parser.rs. Note
the source passes `option_codes_case_sensitive` to the value text match in
both the `Always` and `IfPossible` arms. -/
def tryMatchOption (p : Parser) (ps : ParseState) (hasValue : Bool) (matcher : Matcher) : Bool :=
  if tryMatchOptionExcludingValue p ps matcher then
    match matcher.optionHasValue with
    | .always =>
      if hasValue then
        tryMatchValueText ps.valueBldr matcher.valueText p.optionCodesCaseSensitive
      else
        false
    | .ifPossible =>
      if hasValue then
        tryMatchValueText ps.valueBldr matcher.valueText p.optionCodesCaseSensitive
      else
        true
    | .never => !hasValue
  else
    false

/-- Embeds `Parser::try_find_option_matcher` from src/parmacl/src/parser.rs:
an empty registry yields the synthetic accept-all matcher without consulting
`try_match_option`. -/
def tryFindOptionMatcher (p : Parser) (ps : ParseState) (hasValue : Bool) : Option Matcher :=
  if p.matchers.isEmpty then
    some anyMatcher
  else
    p.matchers.find? (fun matcher => tryMatchOption p ps hasValue matcher)

/-- Embeds `Parser::can_option_code_have_value_with_matcher` from
src/parmacl/src/parser.rs. -/
def canOptionCodeHaveValueWithMatcher (p : Parser) (ps : ParseState) (matcher : Matcher) : Bool :=
  if tryMatchOptionExcludingValue p ps matcher then
    matcher.optionHasValue != .never
  else
    false

/-- Embeds `Parser::can_option_code_have_value` from src/parmacl/src/parser.rs. -/
def canOptionCodeHaveValue (p : Parser) (ps : ParseState) : Bool :=
  if p.matchers.isEmpty then
    canOptionCodeHaveValueWithMatcher p ps anyMatcher
  else
    p.matchers.any (fun matcher => canOptionCodeHaveValueWithMatcher p ps matcher)

/-- Embeds `Parser::can_option_have_value_with_first_char_with_matcher` from
src/parmacl/src/parser.rs. The `Never` arm is the source `unreachable!`,
modelled as `PResult.panicked`. -/
def canOptionHaveValueWithFirstCharWithMatcher (p : Parser) (ps : ParseState)
    (firstCharOfValueIsOptionAnnouncer : Bool) (matcher : Matcher) :
    PResult OptionHasValueBasedOnFirstChar :=
  if tryMatchOptionExcludingValue p ps matcher then
    match matcher.optionHasValue with
    | .always =>
      if matcher.optionValueCanStartWithOptionAnnouncer then
        .ok .must
      else
        if firstCharOfValueIsOptionAnnouncer then
          .err (ps.createOptionError .optionValueCannotStartWithOptionAnnouncer)
        else
          .ok .must
    | .ifPossible =>
      if ps.optionValueAnnouncerIsAmbiguous then
        if firstCharOfValueIsOptionAnnouncer then
          .ok .mustNot
        else
          .ok .possibly
      else
        if firstCharOfValueIsOptionAnnouncer then
          .err (ps.createOptionError .optionValueCannotStartWithOptionAnnouncer)
        else
          .ok .must
    | .never => .panicked
  else
    .ok .mustNot

/-- The matcher loop of `Parser::can_option_have_value_with_first_char`
(the `for matcher in &self.matchers` body): `Must` returns immediately,
`Possibly` is remembered, `MustNot` leaves the accumulator unchanged. -/
def canOptionHaveValueWithFirstCharLoop (p : Parser) (ps : ParseState)
    (firstCharOfValueIsOptionAnnouncer : Bool) :
    List Matcher → OptionHasValueBasedOnFirstChar → PResult OptionHasValueBasedOnFirstChar
  | [], hasValue => .ok hasValue
  | matcher :: rest, hasValue =>
    match canOptionHaveValueWithFirstCharWithMatcher p ps firstCharOfValueIsOptionAnnouncer matcher with
    | .ok .must => .ok .must
    | .ok .possibly => canOptionHaveValueWithFirstCharLoop p ps firstCharOfValueIsOptionAnnouncer rest .possibly
    | .ok .mustNot => canOptionHaveValueWithFirstCharLoop p ps firstCharOfValueIsOptionAnnouncer rest hasValue
    | .err e => .err e
    | .panicked => .panicked

/-- Embeds `Parser::can_option_have_value_with_first_char` from
src/parmacl/src/parser.rs. -/
def canOptionHaveValueWithFirstChar (p : Parser) (ps : ParseState)
    (firstCharOfValueIsOptionAnnouncer : Bool) : PResult OptionHasValueBasedOnFirstChar :=
  if p.matchers.isEmpty then
    canOptionHaveValueWithFirstCharWithMatcher p ps firstCharOfValueIsOptionAnnouncer anyMatcher
  else
    canOptionHaveValueWithFirstCharLoop p ps firstCharOfValueIsOptionAnnouncer p.matchers .mustNot

/-- Embeds `Parser::add_option_arg` from src/parmacl/src/parser.rs. -/
def addOptionArg (ps : ParseState) (hasValue : Bool) (matcher : Matcher)
    (args : List Arg) : ParseState × List Arg :=
  let valueText := if hasValue then some ps.valueBldr else none
  let properties : OptionProperties :=
    { matcher := matcher
      charIndex := ps.argStartCharIdx
      envLineApproximateCharIndex := ps.argStartEnvLineApproximateCharIdx
      argIndex := ps.argCount
      envArgIndex := ps.envArgIdx
      optionIndex := ps.optionCount
      code := ps.optionCode
      valueText := valueText }
  ({ ps with argCount := ps.argCount + 1, optionCount := ps.optionCount + 1 },
    args ++ [Arg.option properties])

/-- Embeds `Parser::add_param_arg` from src/parmacl/src/parser.rs. -/
def addParamArg (ps : ParseState) (matcher : Matcher) (args : List Arg) :
    ParseState × List Arg :=
  let properties : ParamProperties :=
    { matcher := matcher
      charIndex := ps.argStartCharIdx
      envLineApproximateCharIndex := ps.argStartEnvLineApproximateCharIdx
      argIndex := ps.argCount
      envArgIndex := ps.envArgIdx
      paramIndex := ps.paramCount
      valueText := ps.valueBldr }
  ({ ps with argCount := ps.argCount + 1, paramCount := ps.paramCount + 1 },
    args ++ [Arg.param properties])

/-- Embeds `Parser::add_binary_arg` from src/parmacl/src/parser.rs. -/
def addBinaryArg (ps : ParseState) (matcher : Matcher) (args : List Arg) :
    ParseState × List Arg :=
  let properties : BinaryProperties :=
    { matcher := matcher
      charIndex := ps.argStartCharIdx
      envLineApproximateCharIndex := ps.argStartEnvLineApproximateCharIdx
      argIndex := ps.argCount
      envArgIndex := ps.envArgIdx
      valueText := ps.valueBldr }
  ({ ps with argCount := ps.argCount + 1 }, args ++ [Arg.binary properties])

/-- Embeds `Parser::match_binary_arg` from src/parmacl/src/parser.rs: adds
the token with the accept-all matcher and always succeeds. -/
def matchBinaryArg (ps : ParseState) (args : List Arg) : PResult (ParseState × List Arg) :=
  .ok (addBinaryArg ps anyMatcher args)

/-- Embeds `Parser::match_param_arg` from src/parmacl/src/parser.rs. -/
def matchParamArg (p : Parser) (ps : ParseState) (args : List Arg) :
    PResult (ParseState × List Arg) :=
  if ps.currentParamIsBinary then
    matchBinaryArg ps args
  else
    let optionedMatcher :=
      if p.matchers.isEmpty then
        some anyMatcher
      else
        p.matchers.find? (fun matcher => tryMatchParam p ps matcher)
    match optionedMatcher with
    | some matcher => .ok (addParamArg ps matcher args)
    | none => .err (ps.createParamError .unmatchedParam)

/-- Embeds `Parser::match_option_arg` from src/parmacl/src/parser.rs:
try (code, value, has-value) first; on failure, when the value may have been
a parameter, retry without value and reclassify the captured text with
`match_param_arg`; otherwise the argument is an unmatched option. -/
def matchOptionArg (p : Parser) (ps : ParseState) (hasValue : Bool) (args : List Arg) :
    PResult (ParseState × List Arg) :=
  match tryFindOptionMatcher p ps hasValue with
  | some matcher => .ok (addOptionArg ps hasValue matcher args)
  | none =>
    if hasValue && ps.currentOptionValueMayBeParam then
      match tryFindOptionMatcher p ps false with
      | some matcher =>
        let (ps, args) := addOptionArg ps false matcher args
        matchParamArg p ps args
      | none => .err (ps.createOptionError .unmatchedOption)
    else
      .err (ps.createOptionError .unmatchedOption)

/-- Embeds `Parser::finalise_option_code` from src/parmacl/src/parser.rs. -/
def finaliseOptionCode (p : Parser) (ps : ParseState) (valueAnnounced : ValueAnnounced)
    (args : List Arg) : PResult (ParseState × List Arg) := do
  let ps ← ps.setOptionCode (some ps.lineOrEnvArgCharIdx)
  match valueAnnounced with
  | .definitely =>
    if canOptionCodeHaveValue p ps then
      .ok ({ ps with optionParseState := .waitOptionValue }, args)
    else
      .err (ps.createOptionError .noMatchForOptionWithValue)
  | .ambiguous =>
    if canOptionCodeHaveValue p ps then
      .ok ({ ps with optionParseState := .waitOptionValue }, args)
    else
      let ps := { ps with currentOptionValueMayBeParam := false }
      let (ps, args) ← matchOptionArg p ps false args
      .ok ({ ps with argParseState := .waitOptionOrParam }, args)
  | .not =>
    let ps := { ps with currentOptionValueMayBeParam := false }
    let (ps, args) ← matchOptionArg p ps false args
    .ok ({ ps with argParseState := .waitOptionOrParam }, args)

/-- The `ArgParseState::WaitBinary` arm of `Parser::process_char` from
src/parmacl/src/parser.rs. -/
def processWaitBinary (p : Parser) (ps : ParseState) (envChar : EnvChar) (args : List Arg) :
    PResult (ParseState × List Arg × Bool) :=
  match envChar.tryGetUnicodeNonWhitespace with
  | some unicodeChar =>
    if p.parseTerminateChars.contains unicodeChar then
      .ok (ps, args, false)
    else
      let ps := initialiseParamParsing p ps unicodeChar true
      .ok ({ ps with argParseState := .inParam }, args, true)
  | none => .ok (ps, args, true)

/-- The `ArgParseState::WaitOptionOrParam` arm of `Parser::process_char`
from src/parmacl/src/parser.rs. This arm is also what the source recursive
`process_char` call in the `MustNot` branch dispatches to, because that call
happens right after `arg_parse_state` is set to `WaitOptionOrParam`. -/
def processWaitOptionOrParam (p : Parser) (ps : ParseState) (envChar : EnvChar)
    (args : List Arg) : PResult (ParseState × List Arg × Bool) :=
  match envChar.tryGetUnicodeNonWhitespace with
  | some unicodeChar =>
    if p.parseTerminateChars.contains unicodeChar then
      .ok (ps, args, false)
    else
      if p.optionAnnouncerChars.contains unicodeChar then
        let ps := { ps with argParseState := .inOption }
        .ok (initialiseOptionParsing ps unicodeChar, args, true)
      else
        let ps := { ps with argParseState := .inParam }
        .ok (initialiseParamParsing p ps unicodeChar false, args, true)
  | none => .ok (ps, args, true)

/-- The `ArgParseState::InParam` arm of `Parser::process_char` from
src/parmacl/src/parser.rs. -/
def processInParam (p : Parser) (ps : ParseState) (envChar : EnvChar) (args : List Arg) :
    PResult (ParseState × List Arg × Bool) :=
  match envChar with
  | .separator =>
    if ps.valueQuoted then
      .err (ps.createParamError .paramMissingClosingQuoteCharacter)
    else do
      let (ps, args) ← matchParamArg p ps args
      .ok ({ ps with argParseState := .waitOptionOrParam }, args, true)
  | .unicode unicodeChar =>
    let ps :=
      if p.escapeChar == some unicodeChar then
        { ps with argParseState := .inParamEscaped }
      else ps
    if ps.argParseState == .inParam then
      if ps.valueQuoted then
        if unicodeChar == ps.argQuoteChar then
          .ok ({ ps with argParseState := .inParamPossibleEndQuote }, args, true)
        else
          .ok ({ ps with valueBldr := ps.valueBldr ++ [unicodeChar] }, args, true)
      else
        if !unicodeChar.isWhitespace then
          .ok ({ ps with valueBldr := ps.valueBldr ++ [unicodeChar] }, args, true)
        else do
          let (ps, args) ← matchParamArg p ps args
          .ok ({ ps with argParseState := .waitOptionOrParam }, args, true)
    else
      .ok (ps, args, true)

/-- The `ArgParseState::InParamPossibleEndQuote` arm of
`Parser::process_char` from src/parmacl/src/parser.rs. -/
def processInParamPossibleEndQuote (p : Parser) (ps : ParseState) (envChar : EnvChar)
    (args : List Arg) : PResult (ParseState × List Arg × Bool) :=
  match envChar with
  | .separator => do
    let (ps, args) ← matchParamArg p ps args
    .ok ({ ps with argParseState := .waitOptionOrParam }, args, true)
  | .unicode unicodeChar =>
    if unicodeChar == ps.argQuoteChar && p.embedQuoteCharWithDouble then
      .ok ({ ps with valueBldr := ps.valueBldr ++ [unicodeChar], argParseState := .inParam },
        args, true)
    else
      if unicodeChar.isWhitespace then do
        let (ps, args) ← matchParamArg p ps args
        .ok ({ ps with argParseState := .waitOptionOrParam }, args, true)
      else
        .err (ps.createParamError .quotedParamNotFollowedByWhitespaceChar)

/-- The `ArgParseState::InParamEscaped` arm of `Parser::process_char` from
src/parmacl/src/parser.rs. -/
def processInParamEscaped (p : Parser) (ps : ParseState) (envChar : EnvChar)
    (args : List Arg) : PResult (ParseState × List Arg × Bool) :=
  match envChar with
  | .separator => .err (ps.createParamError .escapeCharacterAtEndOfParam)
  | .unicode unicodeChar =>
    if canCharBeEscaped p ps unicodeChar then
      .ok ({ ps with valueBldr := ps.valueBldr ++ [unicodeChar], argParseState := .inParam },
        args, true)
    else
      .err (ps.createParamError .escapedCharacterInParamCannotBeEscaped)

/-- The `OptionParseState::InCode` arm of `Parser::process_char` from
src/parmacl/src/parser.rs. -/
def processInCode (p : Parser) (ps : ParseState) (envChar : EnvChar) (args : List Arg) :
    PResult (ParseState × List Arg × Bool) :=
  match envChar with
  | .separator => do
    let (ps, args) ← finaliseOptionCode p ps .ambiguous args
    .ok (ps, args, true)
  | .unicode unicodeChar =>
    if p.parseTerminateChars.contains unicodeChar then do
      let (ps, args) ← finaliseOptionCode p ps .not args
      .ok (ps, args, false)
    else
      if p.optionValueAnnouncerChars.contains unicodeChar then
        let valueAnnounced : ValueAnnounced :=
          if unicodeChar.isWhitespace then .ambiguous else .definitely
        do
          let (ps, args) ← finaliseOptionCode p ps valueAnnounced args
          .ok (ps, args, true)
      else
        if p.quoteChars.contains unicodeChar then
          .err (ps.createOptionError .optionCodeCannotContainQuoteChar)
        else
          if p.escapeChar == some unicodeChar then
            .err (ps.createOptionError .optionCodeCannotContainEscapeChar)
          else
            .ok (ps, args, true)

/-- The `OptionParseState::WaitOptionValue` arm of `Parser::process_char`
from src/parmacl/src/parser.rs. The `MustNot` verdict re-dispatches the
current character through `process_char`, which lands in the
`WaitOptionOrParam` arm because that state was just assigned. -/
def processWaitOptionValue (p : Parser) (ps : ParseState) (envChar : EnvChar)
    (args : List Arg) : PResult (ParseState × List Arg × Bool) :=
  match envChar.tryGetUnicodeNonWhitespace with
  | some unicodeChar =>
    let firstCharOfValueIsOptionAnnouncer := p.optionValueAnnouncerChars.contains unicodeChar
    match canOptionHaveValueWithFirstChar p ps firstCharOfValueIsOptionAnnouncer with
    | .err e => .err e
    | .panicked => .panicked
    | .ok hasValue =>
      match hasValue with
      | .must =>
        let ps := { ps with optionParseState := .inValue }
        let ps := initialiseOptionValueParsing p ps unicodeChar
        .ok ({ ps with currentOptionValueMayBeParam := false }, args, true)
      | .possibly =>
        let ps := { ps with optionParseState := .inValue }
        let ps := initialiseOptionValueParsing p ps unicodeChar
        .ok ({ ps with currentOptionValueMayBeParam := true }, args, true)
      | .mustNot => do
        let ps := { ps with currentOptionValueMayBeParam := false }
        let (ps, args) ← matchOptionArg p ps false args
        let ps := { ps with argParseState := .waitOptionOrParam }
        processWaitOptionOrParam p ps envChar args
  | none => .ok (ps, args, true)

/-- The `OptionParseState::InValue` arm of `Parser::process_char` from
src/parmacl/src/parser.rs. -/
def processInValue (p : Parser) (ps : ParseState) (envChar : EnvChar) (args : List Arg) :
    PResult (ParseState × List Arg × Bool) :=
  match envChar with
  | .separator =>
    if ps.valueQuoted then
      .err (ps.createOptionError .optionValueMissingClosingQuoteCharacter)
    else do
      let (ps, args) ← matchOptionArg p ps true args
      .ok ({ ps with argParseState := .waitOptionOrParam }, args, true)
  | .unicode unicodeChar =>
    let ps :=
      if p.escapeChar == some unicodeChar then
        { ps with optionParseState := .inValueEscaped }
      else ps
    if ps.optionParseState == .inValue then
      if ps.valueQuoted then
        if unicodeChar == ps.argQuoteChar then
          .ok ({ ps with optionParseState := .inValuePossibleEndQuote }, args, true)
        else
          .ok ({ ps with valueBldr := ps.valueBldr ++ [unicodeChar] }, args, true)
      else
        if !unicodeChar.isWhitespace then
          .ok ({ ps with valueBldr := ps.valueBldr ++ [unicodeChar] }, args, true)
        else do
          let (ps, args) ← matchOptionArg p ps true args
          .ok ({ ps with argParseState := .waitOptionOrParam }, args, true)
    else
      .ok (ps, args, true)

/-- The `OptionParseState::InValuePossibleEndQuote` arm of
`Parser::process_char` from src/parmacl/src/parser.rs. -/
def processInValuePossibleEndQuote (p : Parser) (ps : ParseState) (envChar : EnvChar)
    (args : List Arg) : PResult (ParseState × List Arg × Bool) :=
  match envChar with
  | .separator => do
    let (ps, args) ← matchOptionArg p ps true args
    .ok ({ ps with argParseState := .waitOptionOrParam }, args, true)
  | .unicode unicodeChar =>
    if unicodeChar == ps.argQuoteChar && p.embedQuoteCharWithDouble then
      .ok ({ ps with valueBldr := ps.valueBldr ++ [unicodeChar], optionParseState := .inValue },
        args, true)
    else
      if unicodeChar.isWhitespace then do
        let (ps, args) ← matchOptionArg p ps true args
        .ok ({ ps with argParseState := .waitOptionOrParam }, args, true)
      else
        .err (ps.createOptionError .quotedOptionValueNotFollowedByWhitespaceChar)

/-- The `OptionParseState::InValueEscaped` arm of `Parser::process_char`
from src/parmacl/src/parser.rs. -/
def processInValueEscaped (p : Parser) (ps : ParseState) (envChar : EnvChar)
    (args : List Arg) : PResult (ParseState × List Arg × Bool) :=
  match envChar with
  | .separator => .err (ps.createOptionError .escapeCharacterAtEndOfOptionValue)
  | .unicode unicodeChar =>
    if canCharBeEscaped p ps unicodeChar then
      .ok ({ ps with valueBldr := ps.valueBldr ++ [unicodeChar], optionParseState := .inValue },
        args, true)
    else
      .err (ps.createOptionError .escapedCharacterInOptionValueCannotBeEscaped)

/-- Embeds `Parser::process_char` from src/parmacl/src/parser.rs: dispatch
on the outer state, and within `InOption` on the inner state. -/
def processChar (p : Parser) (ps : ParseState) (envChar : EnvChar) (args : List Arg) :
    PResult (ParseState × List Arg × Bool) :=
  match ps.argParseState with
  | .waitBinary => processWaitBinary p ps envChar args
  | .waitOptionOrParam => processWaitOptionOrParam p ps envChar args
  | .inParam => processInParam p ps envChar args
  | .inParamPossibleEndQuote => processInParamPossibleEndQuote p ps envChar args
  | .inParamEscaped => processInParamEscaped p ps envChar args
  | .inOption =>
    match ps.optionParseState with
    | .inCode => processInCode p ps envChar args
    | .waitOptionValue => processWaitOptionValue p ps envChar args
    | .inValue => processInValue p ps envChar args
    | .inValuePossibleEndQuote => processInValuePossibleEndQuote p ps envChar args
    | .inValueEscaped => processInValueEscaped p ps envChar args

/-- Embeds `Parser::finalise_parse` from src/parmacl/src/parser.rs. -/
def finaliseParse (p : Parser) (ps : ParseState) (args : List Arg) :
    PResult (ParseState × List Arg) :=
  match ps.argParseState with
  | .waitBinary => .ok (ps, args)
  | .waitOptionOrParam => .ok (ps, args)
  | .inParam =>
    if ps.valueQuoted then
      .err (ps.createParamError .paramMissingClosingQuoteCharacter)
    else
      matchParamArg p ps args
  | .inParamPossibleEndQuote => matchParamArg p ps args
  | .inParamEscaped => .err (ps.createParamError .escapedCharacterInParamCannotBeEscaped)
  | .inOption =>
    match ps.optionParseState with
    | .inCode => do
      let ps ← ps.setOptionCode none
      let ps := { ps with currentOptionValueMayBeParam := false }
      matchOptionArg p ps false args
    | .waitOptionValue =>
      match canOptionHaveValueWithFirstChar p ps false with
      | .err e => .err e
      | .panicked => .panicked
      | .ok .must => .err (ps.createOptionError .optionMissingValue)
      | .ok .possibly =>
        matchOptionArg p { ps with currentOptionValueMayBeParam := false } false args
      | .ok .mustNot =>
        matchOptionArg p { ps with currentOptionValueMayBeParam := false } false args
    | .inValue =>
      if ps.valueQuoted then
        .err (ps.createOptionError .optionValueMissingClosingQuoteCharacter)
      else
        matchOptionArg p ps true args
    | .inValuePossibleEndQuote => matchOptionArg p ps true args
    | .inValueEscaped => .err (ps.createOptionError .escapeCharacterAtEndOfLine)

/-- The character loop of `Parser::parse_line` from
src/parmacl/src/parser.rs: process each character; while `more` holds,
advance both character counters; otherwise ignore the rest of the line. -/
def runChars (p : Parser) (ps : ParseState) (args : List Arg) :
    List Char → PResult (ParseState × List Arg)
  | [] => .ok (ps, args)
  | c :: rest =>
    match processChar p ps (EnvChar.unicode c) args with
    | .err e => .err e
    | .panicked => .panicked
    | .ok (ps, args, more) =>
      if more then
        let ps := { ps with
          envLineApproximateCharIdx := ps.envLineApproximateCharIdx + 1
          lineOrEnvArgCharIdx := ps.lineOrEnvArgCharIdx + 1 }
        runChars p ps args rest
      else
        .ok (ps, args)

/-- Embeds `Parser::parse_line` from src/parmacl/src/parser.rs. -/
def parseLine (p : Parser) (line : List Char) : PResult (List Arg) := do
  let ps := ParseState.new line p.firstArgIsBinary p.multiCharOptionCodeRequiresDoubleAnnouncer
  let (ps, args) ← runChars p ps [] line
  let (_, args) ← finaliseParse p ps args
  .ok args

/-- Summary of one parsed argument: the variant, the data the spec scenarios
talk about (value text, option code) and the argument index. -/
inductive ArgView where
  | binary (valueText : List Char) (argIndex : Nat)
  | param (valueText : List Char) (argIndex : Nat)
  | option (code : List Char) (valueText : Option (List Char)) (argIndex : Nat)
  deriving DecidableEq, Repr

/-- Project an `Arg` to its `ArgView` summary. -/
def Arg.view : Arg → ArgView
  | .binary properties => .binary properties.valueText properties.argIndex
  | .param properties => .param properties.valueText properties.argIndex
  | .option properties => .option properties.code properties.valueText properties.argIndex

/-- Summaries of a successful parse result, `none` on error or panic. -/
def resultViews : PResult (List Arg) → Option (List ArgView)
  | .ok args => some (args.map Arg.view)
  | _ => none

/-- The error kind of a failed parse result, `none` on success or panic. -/
def resultErrorId : PResult (List Arg) → Option ParseErrorTypeId
  | .err e => some e.typeId
  | _ => none

/-- The double-quote character. -/
def dq : Char := Char.ofNat 34

/-- Value-completion contract, following the words of the spec (section 4.4
step 4): first attempt to match (code, value, has-value = true); if that
fails and the value was only Possibly attached
(`current_option_value_may_be_param`), retry (code, has-value = false); on
retry success emit the Option with no value and then run the full Param
classification on the text that had been tentatively captured as the value;
if neither attempt matches, report `UnmatchedOption`. This definition is to
be compared with `matchOptionArg`, which is translated from the code. -/
def specValueCompletion (p : Parser) (ps : ParseState) (args : List Arg) :
    PResult (ParseState × List Arg) :=
  match tryFindOptionMatcher p ps true with
  | some matcher => .ok (addOptionArg ps true matcher args)
  | none =>
    if ps.currentOptionValueMayBeParam then
      match tryFindOptionMatcher p ps false with
      | some matcher =>
        let (ps, args) := addOptionArg ps false matcher args
        matchParamArg p ps args
      | none => .err (ps.createOptionError .unmatchedOption)
    else
      .err (ps.createOptionError .unmatchedOption)

/-- Matcher for option code `b` with `option_has_value = IfPossible`. -/
def matcherB : Matcher :=
  { name := "optionB".toList
    optionCodes := some [{ text := ['b'] }]
    optionHasValue := .ifPossible }

/-- Parser with line defaults, `first_arg_is_binary = false`, and the single
matcher `matcherB` (claim C1 scenario). -/
def cfgC1 : Parser :=
  { Parser.new with firstArgIsBinary := false, matchers := [matcherB] }

/-- Parser with line defaults, `first_arg_is_binary = false` and
`multi_char_option_code_requires_double_announcer = true` (claim C3). -/
def cfgC3 : Parser :=
  { Parser.new with
    firstArgIsBinary := false
    multiCharOptionCodeRequiresDoubleAnnouncer := true }

/-- Matcher for option code `c` with `option_has_value = Always` and
`option_value_can_start_with_option_announcer = false` (the default). -/
def matcherC : Matcher :=
  { name := "optionC".toList
    optionCodes := some [{ text := ['c'] }]
    optionHasValue := .always }

/-- Parser with line defaults, `first_arg_is_binary = false`, matcher
`matcherC` (claim C4). -/
def cfgC4 : Parser :=
  { Parser.new with firstArgIsBinary := false, matchers := [matcherC] }

/-- `cfgC4` with `=` added as a second option value announcer character. -/
def cfgC4e : Parser :=
  { cfgC4 with optionValueAnnouncerChars := [' ', '='] }

/-- Matcher with every filter unset and `option_has_value = Never`
(the default), as built by `Matcher::new`. -/
def matcherNever : Matcher := { name := "never".toList }

/-- Matcher with every filter unset and `option_has_value = Always`. -/
def matcherAlways : Matcher := { name := "always".toList, optionHasValue := .always }

/-- Parser with line defaults, `first_arg_is_binary = false` and matchers
`[matcherNever, matcherAlways]` (claim C5). -/
def cfgC5 : Parser :=
  { Parser.new with firstArgIsBinary := false, matchers := [matcherNever, matcherAlways] }

/-- Parser with line defaults and `first_arg_is_binary = false`, no
matchers (claims C5, C9, C10). -/
def cfgNoBinary : Parser :=
  { Parser.new with firstArgIsBinary := false }

/-- The claim C6 scenario line. -/
def c6Line : List Char := "binary param1 param2 -a -b param3".toList

/-- Matcher accepting only option code `z`. -/
def matcherZ : Matcher :=
  { name := "optionZ".toList, optionCodes := some [{ text := ['z'] }] }

/-- Parser with `first_arg_is_binary = false` and matcher `matcherZ`
(claim C8, option-error case). -/
def cfgC8o : Parser :=
  { Parser.new with firstArgIsBinary := false, matchers := [matcherZ] }

/-- Matcher restricted to option arguments with code `a`. -/
def matcherAOpt : Matcher :=
  { name := "optionA".toList
    argType := some .option
    optionCodes := some [{ text := ['a'] }] }

/-- Parser with `first_arg_is_binary = false` and matcher `matcherAOpt`
(claim C8, param-error case). -/
def cfgC8p : Parser :=
  { Parser.new with firstArgIsBinary := false, matchers := [matcherAOpt] }

/-- The `ParseError` produced by `parseLine cfgC8o "-a"`. -/
def errC8o : ParseError :=
  { typeId := .unmatchedOption
    lineCharIndex := 2
    argIndex := 0
    optionIndex := some 0
    optionCode := some ['a']
    paramIndex := none
    paramValueText := [] }

/-- The `ParseError` produced by `parseLine cfgC8p "-a x"`. -/
def errC8p : ParseError :=
  { typeId := .unmatchedParam
    lineCharIndex := 4
    argIndex := 1
    optionIndex := none
    optionCode := none
    paramIndex := some 1
    paramValueText := ['x'] }

/-- The `ParseError` produced by `parseLine Parser.new` on the line `"x`
(quoted parameter with a missing closing quote). -/
def errC7w : ParseError :=
  { typeId := .paramMissingClosingQuoteCharacter
    lineCharIndex := 2
    argIndex := 0
    optionIndex := none
    optionCode := none
    paramIndex := some 0
    paramValueText := ['x'] }

/-- Double each embedded quote character of `v` (the re-serialization step
of the quote-doubling round trip of claim C9). -/
def quoteDouble (v : List Char) : List Char :=
  (v.map (fun c => if c = dq then [dq, dq] else [c])).flatten

/-- Enclose `v` in quote characters after doubling each embedded quote. -/
def encodeQuoted (v : List Char) : List Char :=
  dq :: quoteDouble v ++ [dq]

/-- Character condition of claim C9 on the value being round-tripped: each
character is either a literal quote or has no other special meaning to the
parser (not whitespace, not an option announcer, not a parse terminator;
`cfgNoBinary` configures no escape character). -/
def c9Allowed (c : Char) : Prop :=
  c = dq ∨ (¬ c.isWhitespace ∧ c ∉ cfgNoBinary.optionAnnouncerChars
    ∧ c ∉ cfgNoBinary.parseTerminateChars)

instance (c : Char) : Decidable (c9Allowed c) := by
  unfold c9Allowed
  infer_instance

/-- Absence of the two dispatch failures among parse outcomes: the claim C7
property that an outcome is never an `UnmatchedOption` or `UnmatchedParam`
error. -/
def noUnmatched {α : Type} : PResult α → Prop
  | .err e => e.typeId ≠ .unmatchedOption ∧ e.typeId ≠ .unmatchedParam
  | _ => True

/- ## Helper lemmas and claim theorems -/

theorem bind_ok_eq {α β : Type} (a : α) (f : α → PResult β) :
    (PResult.ok a >>= f) = f a := rfl

theorem bind_err_eq {α β : Type} (e : ParseError) (f : α → PResult β) :
    (PResult.err e >>= f : PResult β) = .err e := rfl

theorem bind_panicked_eq {α β : Type} (f : α → PResult β) :
    (PResult.panicked >>= f : PResult β) = .panicked := rfl

theorem noUnmatched_bind {α β : Type} {r : PResult α} {f : α → PResult β}
    (hr : noUnmatched r) (hf : ∀ a, noUnmatched (f a)) : noUnmatched (r >>= f) := by
  cases r with
  | ok a => exact hf a
  | err e => exact hr
  | panicked => trivial

theorem noUnmatched_setOptionCode (ps : ParseState) (oe : Option Nat) :
    noUnmatched (ps.setOptionCode oe) := by
  unfold ParseState.setOptionCode
  dsimp only
  cases byteSlice ps.lineOrEnvArg ps.optionCodeStartLineCharIdx (oe.getD ps.lineLen) with
  | none => trivial
  | some rawOptionCode =>
    cases rawOptionCode with
    | nil => trivial
    | cons firstChar restChars =>
      dsimp only
      split
      · trivial
      · split
        · split <;> trivial
        · split
          · trivial
          · constructor <;> simp [ParseState.createOptionError, ParseError.newOption]

theorem tryFindOptionMatcher_nil {p : Parser} (h : p.matchers = []) (ps : ParseState)
    (hv : Bool) : tryFindOptionMatcher p ps hv = some anyMatcher := by
  simp [tryFindOptionMatcher, h]

theorem matchOptionArg_nil {p : Parser} (h : p.matchers = []) (ps : ParseState) (hv : Bool)
    (args : List Arg) : matchOptionArg p ps hv args = .ok (addOptionArg ps hv anyMatcher args) := by
  rw [matchOptionArg, tryFindOptionMatcher_nil h]

theorem matchParamArg_nil {p : Parser} (h : p.matchers = []) (ps : ParseState)
    (args : List Arg) : matchParamArg p ps args =
      .ok (if ps.currentParamIsBinary then addBinaryArg ps anyMatcher args
        else addParamArg ps anyMatcher args) := by
  rw [matchParamArg]
  split
  · rw [matchBinaryArg]
  · simp_all [h]

theorem noUnmatched_finaliseOptionCode {p : Parser} (h : p.matchers = []) (ps : ParseState)
    (va : ValueAnnounced) (args : List Arg) :
    noUnmatched (finaliseOptionCode p ps va args) := by
  rw [finaliseOptionCode]
  apply noUnmatched_bind (noUnmatched_setOptionCode ps _)
  intro ps'
  cases va <;> dsimp only
  · split
    · trivial
    · constructor <;> simp [ParseState.createOptionError, ParseError.newOption]
  · split
    · trivial
    · rw [matchOptionArg_nil h, bind_ok_eq]; trivial
  · rw [matchOptionArg_nil h, bind_ok_eq]; trivial

theorem cfc_nil {p : Parser} (h : p.matchers = []) (ps : ParseState) (f : Bool) :
    canOptionHaveValueWithFirstChar p ps f = .panicked := by
  simp [canOptionHaveValueWithFirstChar, h, canOptionHaveValueWithFirstCharWithMatcher,
    tryMatchOptionExcludingValue, anyMatcher, tryMatchIndex, tryMatchArgType, tryMatchOptionCode]

theorem noUnmatched_matchParamArg {p : Parser} (h : p.matchers = []) (ps : ParseState)
    (args : List Arg) : noUnmatched (matchParamArg p ps args) := by
  rw [matchParamArg_nil h]; trivial

theorem noUnmatched_pwb {p : Parser} (_h : p.matchers = []) (ps : ParseState) (c : EnvChar)
    (args : List Arg) : noUnmatched (processWaitBinary p ps c args) := by
  cases c <;> rw [processWaitBinary] <;> (try dsimp only) <;> repeat' split
  all_goals first
    | trivial
    | (constructor <;> simp [ParseState.createParamError, ParseError.newParam,
        ParseState.createOptionError, ParseError.newOption])
    | (rw [matchParamArg_nil h, bind_ok_eq]; trivial)
    | (rw [matchOptionArg_nil h, bind_ok_eq]; trivial)
    | (apply noUnmatched_bind (noUnmatched_finaliseOptionCode h _ _ _)
       intro a
       obtain ⟨ps1, args1⟩ := a
       trivial)

theorem noUnmatched_pwop {p : Parser} (_h : p.matchers = []) (ps : ParseState) (c : EnvChar)
    (args : List Arg) : noUnmatched (processWaitOptionOrParam p ps c args) := by
  cases c <;> rw [processWaitOptionOrParam] <;> (try dsimp only) <;> repeat' split
  all_goals first
    | trivial
    | (constructor <;> simp [ParseState.createParamError, ParseError.newParam,
        ParseState.createOptionError, ParseError.newOption])
    | (rw [matchParamArg_nil h, bind_ok_eq]; trivial)
    | (rw [matchOptionArg_nil h, bind_ok_eq]; trivial)
    | (apply noUnmatched_bind (noUnmatched_finaliseOptionCode h _ _ _)
       intro a
       obtain ⟨ps1, args1⟩ := a
       trivial)

theorem noUnmatched_pip {p : Parser} (h : p.matchers = []) (ps : ParseState) (c : EnvChar)
    (args : List Arg) : noUnmatched (processInParam p ps c args) := by
  cases c <;> rw [processInParam] <;> (try dsimp only) <;> repeat' split
  all_goals first
    | trivial
    | (constructor <;> simp [ParseState.createParamError, ParseError.newParam,
        ParseState.createOptionError, ParseError.newOption])
    | (rw [matchParamArg_nil h, bind_ok_eq]; trivial)
    | (rw [matchOptionArg_nil h, bind_ok_eq]; trivial)
    | (apply noUnmatched_bind (noUnmatched_finaliseOptionCode h _ _ _)
       intro a
       obtain ⟨ps1, args1⟩ := a
       trivial)

theorem noUnmatched_pipeq {p : Parser} (h : p.matchers = []) (ps : ParseState) (c : EnvChar)
    (args : List Arg) : noUnmatched (processInParamPossibleEndQuote p ps c args) := by
  cases c <;> rw [processInParamPossibleEndQuote] <;> (try dsimp only) <;> repeat' split
  all_goals first
    | trivial
    | (constructor <;> simp [ParseState.createParamError, ParseError.newParam,
        ParseState.createOptionError, ParseError.newOption])
    | (rw [matchParamArg_nil h, bind_ok_eq]; trivial)
    | (rw [matchOptionArg_nil h, bind_ok_eq]; trivial)
    | (apply noUnmatched_bind (noUnmatched_finaliseOptionCode h _ _ _)
       intro a
       obtain ⟨ps1, args1⟩ := a
       trivial)

theorem noUnmatched_pipe {p : Parser} (h : p.matchers = []) (ps : ParseState) (c : EnvChar)
    (args : List Arg) : noUnmatched (processInParamEscaped p ps c args) := by
  cases c <;> rw [processInParamEscaped] <;> (try dsimp only) <;> repeat' split
  all_goals first
    | trivial
    | (constructor <;> simp [ParseState.createParamError, ParseError.newParam,
        ParseState.createOptionError, ParseError.newOption])
    | (rw [matchParamArg_nil h, bind_ok_eq]; trivial)
    | (rw [matchOptionArg_nil h, bind_ok_eq]; trivial)
    | (apply noUnmatched_bind (noUnmatched_finaliseOptionCode h _ _ _)
       intro a
       obtain ⟨ps1, args1⟩ := a
       trivial)

theorem noUnmatched_pic {p : Parser} (h : p.matchers = []) (ps : ParseState) (c : EnvChar)
    (args : List Arg) : noUnmatched (processInCode p ps c args) := by
  cases c <;> rw [processInCode] <;> (try dsimp only) <;> repeat' split
  all_goals first
    | trivial
    | (constructor <;> simp [ParseState.createParamError, ParseError.newParam,
        ParseState.createOptionError, ParseError.newOption])
    | (rw [matchParamArg_nil h, bind_ok_eq]; trivial)
    | (rw [matchOptionArg_nil h, bind_ok_eq]; trivial)
    | (apply noUnmatched_bind (noUnmatched_finaliseOptionCode h _ _ _)
       intro a
       obtain ⟨ps1, args1⟩ := a
       trivial)

theorem noUnmatched_piv {p : Parser} (h : p.matchers = []) (ps : ParseState) (c : EnvChar)
    (args : List Arg) : noUnmatched (processInValue p ps c args) := by
  cases c <;> rw [processInValue] <;> (try dsimp only) <;> repeat' split
  all_goals first
    | trivial
    | (constructor <;> simp [ParseState.createParamError, ParseError.newParam,
        ParseState.createOptionError, ParseError.newOption])
    | (rw [matchParamArg_nil h, bind_ok_eq]; trivial)
    | (rw [matchOptionArg_nil h, bind_ok_eq]; trivial)
    | (apply noUnmatched_bind (noUnmatched_finaliseOptionCode h _ _ _)
       intro a
       obtain ⟨ps1, args1⟩ := a
       trivial)

theorem noUnmatched_pivpeq {p : Parser} (h : p.matchers = []) (ps : ParseState) (c : EnvChar)
    (args : List Arg) : noUnmatched (processInValuePossibleEndQuote p ps c args) := by
  cases c <;> rw [processInValuePossibleEndQuote] <;> (try dsimp only) <;> repeat' split
  all_goals first
    | trivial
    | (constructor <;> simp [ParseState.createParamError, ParseError.newParam,
        ParseState.createOptionError, ParseError.newOption])
    | (rw [matchParamArg_nil h, bind_ok_eq]; trivial)
    | (rw [matchOptionArg_nil h, bind_ok_eq]; trivial)
    | (apply noUnmatched_bind (noUnmatched_finaliseOptionCode h _ _ _)
       intro a
       obtain ⟨ps1, args1⟩ := a
       trivial)

theorem noUnmatched_pive {p : Parser} (h : p.matchers = []) (ps : ParseState) (c : EnvChar)
    (args : List Arg) : noUnmatched (processInValueEscaped p ps c args) := by
  cases c <;> rw [processInValueEscaped] <;> (try dsimp only) <;> repeat' split
  all_goals first
    | trivial
    | (constructor <;> simp [ParseState.createParamError, ParseError.newParam,
        ParseState.createOptionError, ParseError.newOption])
    | (rw [matchParamArg_nil h, bind_ok_eq]; trivial)
    | (rw [matchOptionArg_nil h, bind_ok_eq]; trivial)
    | (apply noUnmatched_bind (noUnmatched_finaliseOptionCode h _ _ _)
       intro a
       obtain ⟨ps1, args1⟩ := a
       trivial)

theorem noUnmatched_pwov {p : Parser} (h : p.matchers = []) (ps : ParseState) (c : EnvChar)
    (args : List Arg) : noUnmatched (processWaitOptionValue p ps c args) := by
  rw [processWaitOptionValue]
  cases c.tryGetUnicodeNonWhitespace <;> dsimp only
  · trivial
  · rw [cfc_nil h]; trivial

theorem noUnmatched_processChar {p : Parser} (h : p.matchers = []) (ps : ParseState)
    (c : EnvChar) (args : List Arg) : noUnmatched (processChar p ps c args) := by
  rw [processChar]
  cases ps.argParseState
  case waitBinary => exact noUnmatched_pwb h ..
  case waitOptionOrParam => exact noUnmatched_pwop h ..
  case inParam => exact noUnmatched_pip h ..
  case inParamPossibleEndQuote => exact noUnmatched_pipeq h ..
  case inParamEscaped => exact noUnmatched_pipe h ..
  case inOption =>
    cases ps.optionParseState
    case inCode => exact noUnmatched_pic h ..
    case waitOptionValue => exact noUnmatched_pwov h ..
    case inValue => exact noUnmatched_piv h ..
    case inValuePossibleEndQuote => exact noUnmatched_pivpeq h ..
    case inValueEscaped => exact noUnmatched_pive h ..

theorem noUnmatched_finaliseParse {p : Parser} (h : p.matchers = []) (ps : ParseState)
    (args : List Arg) : noUnmatched (finaliseParse p ps args) := by
  rw [finaliseParse]
  cases ps.argParseState
  case waitBinary => trivial
  case waitOptionOrParam => trivial
  case inParam =>
    dsimp only
    split
    · constructor <;> simp [ParseState.createParamError, ParseError.newParam]
    · exact noUnmatched_matchParamArg h ..
  case inParamPossibleEndQuote => exact noUnmatched_matchParamArg h ..
  case inParamEscaped =>
    constructor <;> simp [ParseState.createParamError, ParseError.newParam]
  case inOption =>
    cases ps.optionParseState
    case inCode =>
      dsimp only
      apply noUnmatched_bind (noUnmatched_setOptionCode ps _)
      intro ps'
      rw [matchOptionArg_nil h]; trivial
    case waitOptionValue =>
      dsimp only
      rw [cfc_nil h]; trivial
    case inValue =>
      dsimp only
      split
      · constructor <;> simp [ParseState.createOptionError, ParseError.newOption]
      · rw [matchOptionArg_nil h]; trivial
    case inValuePossibleEndQuote => dsimp only; rw [matchOptionArg_nil h]; trivial
    case inValueEscaped =>
      constructor <;> simp [ParseState.createOptionError, ParseError.newOption]

theorem noUnmatched_runChars {p : Parser} (h : p.matchers = []) (line : List Char) :
    ∀ (ps : ParseState) (args : List Arg), noUnmatched (runChars p ps args line) := by
  induction line with
  | nil => intro ps args; trivial
  | cons c rest ih =>
    intro ps args
    rw [runChars]
    have hpc := noUnmatched_processChar h ps (EnvChar.unicode c) args
    cases hr : processChar p ps (EnvChar.unicode c) args with
    | ok out =>
      obtain ⟨ps', args', more⟩ := out
      cases more with
      | true => exact ih ..
      | false => trivial
    | err e => rw [hr] at hpc; exact hpc
    | panicked => trivial

/-- Claim C7: for every configuration and every input, if the matcher
registry is empty then parsing never fails with `UnmatchedOption` or
`UnmatchedParam` — every token that reaches dispatch is accepted by the
synthetic accept-all matcher, so an unconfigured parser still produces
results. -/
theorem claim_C7 (p : Parser) (line : List Char) (e : ParseError)
    (hm : p.matchers = []) (he : parseLine p line = .err e) :
    e.typeId ≠ .unmatchedOption ∧ e.typeId ≠ .unmatchedParam := by
  rw [parseLine] at he
  have h1 := noUnmatched_runChars hm line (ParseState.new line p.firstArgIsBinary
    p.multiCharOptionCodeRequiresDoubleAnnouncer) []
  cases hr : runChars p (ParseState.new line p.firstArgIsBinary
      p.multiCharOptionCodeRequiresDoubleAnnouncer) [] line with
  | ok out =>
    obtain ⟨ps, args⟩ := out
    rw [hr, bind_ok_eq] at he
    dsimp only at he
    have h2 := noUnmatched_finaliseParse hm ps args
    cases hf : finaliseParse p ps args with
    | ok out2 =>
      obtain ⟨ps2, args2⟩ := out2
      rw [hf, bind_ok_eq] at he
      dsimp only at he
      exact absurd he (by simp)
    | err e2 =>
      rw [hf, bind_err_eq] at he
      rw [hf] at h2
      cases he
      exact h2
    | panicked =>
      rw [hf, bind_panicked_eq] at he
      exact absurd he (by simp)
  | err e1 =>
    rw [hr, bind_err_eq] at he
    rw [hr] at h1
    cases he
    exact h1
  | panicked =>
    rw [hr, bind_panicked_eq] at he
    exact absurd he (by simp)


theorem c9_loop (v : List Char) :
    ∀ (ps : ParseState) (args : List Arg),
    ps.argParseState = .inParam → ps.valueQuoted = true → ps.argQuoteChar = dq →
    runChars cfgNoBinary ps args (quoteDouble v ++ [dq]) =
      .ok ({ ps with
        argParseState := .inParamPossibleEndQuote,
        valueBldr := ps.valueBldr ++ v,
        envLineApproximateCharIdx := ps.envLineApproximateCharIdx + (quoteDouble v).length + 1,
        lineOrEnvArgCharIdx := ps.lineOrEnvArgCharIdx + (quoteDouble v).length + 1 }, args) := by
  induction v with
  | nil =>
    intro ps args hst hq hqc
    have hqd : quoteDouble [] ++ [dq] = [dq] := rfl
    have hesc : (cfgNoBinary.escapeChar == some dq) = false := rfl
    rw [hqd, runChars, processChar, hst, processInParam]
    simp [hesc, hst, hq, hqc, runChars, quoteDouble]
  | cons c rest ih =>
    intro ps args hst hq hqc
    have hesc : ∀ x : Char, (cfgNoBinary.escapeChar == some x) = false := fun _ => rfl
    by_cases hc : c = dq
    · subst hc
      have hqd : quoteDouble (dq :: rest) ++ [dq] = dq :: dq :: (quoteDouble rest ++ [dq]) := by
        simp [quoteDouble]
      rw [hqd, runChars, processChar, hst, processInParam]
      simp only [hesc, Bool.false_eq_true, if_false, hst, hq, hqc, beq_self_eq_true, if_true,
        reduceIte, beq_iff_eq]
      rw [runChars, processChar]
      simp only [reduceIte]
      rw [processInParamPossibleEndQuote]
      simp only [hqc, beq_self_eq_true, Bool.true_and, reduceIte, beq_iff_eq]
      have hembed : cfgNoBinary.embedQuoteCharWithDouble = true := rfl
      simp only [hembed, if_true, Bool.and_self, reduceIte]
      rw [ih _ args (by simp [hst]) (by simp [hq]) (by simp [hqc])]
      congr 1
      refine Prod.ext ?_ rfl
      simp [quoteDouble, List.append_assoc]
      constructor
      · omega
      · omega
    · have hqd : quoteDouble (c :: rest) ++ [dq] = c :: (quoteDouble rest ++ [dq]) := by
        simp [quoteDouble, hc]
      have hcb : (c == dq) = false := by
        simp [hc]
      rw [hqd, runChars, processChar, hst, processInParam]
      simp only [hesc, Bool.false_eq_true, if_false, hst, hq, hqc, hcb, beq_self_eq_true, if_true,
        reduceIte, beq_iff_eq]
      rw [ih _ args (by simp [hst]) (by simp [hq]) (by simp [hqc])]
      congr 1
      refine Prod.ext ?_ rfl
      simp [quoteDouble, List.append_assoc, hc]
      constructor
      · omega
      · omega

/-- Claim C9: quote-doubling round trip. For every string `v` whose
characters are literal quotes or characters with no other special meaning to
the parser, enclosing `v` in quote characters with each embedded quote
doubled and parsing the result as a single argument (line defaults,
`embed_quote_char_with_double = true`, first argument not a binary) yields
exactly one Param whose value text equals `v`. -/
theorem claim_C9 (v : List Char) (hv : ∀ c ∈ v, c9Allowed c) :
    parseLine cfgNoBinary (encodeQuoted v) =
      .ok [Arg.param
        { matcher := anyMatcher,
          charIndex := 0,
          envLineApproximateCharIndex := 0,
          argIndex := 0,
          envArgIndex := 0,
          paramIndex := 0,
          valueText := v }] := by
  have henc : encodeQuoted v = dq :: (quoteDouble v ++ [dq]) := rfl
  rw [parseLine, henc]
  rw [runChars]
  have hstep : processChar cfgNoBinary
      (ParseState.new (dq :: (quoteDouble v ++ [dq])) cfgNoBinary.firstArgIsBinary
        cfgNoBinary.multiCharOptionCodeRequiresDoubleAnnouncer)
      (EnvChar.unicode dq) [] =
      .ok ({ ParseState.new (dq :: (quoteDouble v ++ [dq])) false false with
        argParseState := .inParam,
        valueQuoted := true,
        argQuoteChar := dq,
        valueBldr := [],
        currentParamIsBinary := false }, [], true) := by
    rfl
  rw [hstep]
  simp only [reduceIte]
  rw [c9_loop v _ [] rfl rfl rfl]
  rw [bind_ok_eq]
  dsimp only
  rw [finaliseParse]
  dsimp only [ParseState.new]
  rw [matchParamArg]
  simp only [cfgNoBinary, Parser.new, addParamArg, anyMatcher, reduceIte]
  rfl


/-- Witness for claim C9: the value `a"b""` (three literal quotes) encodes
to `"a""b""""` and round-trips to exactly one Param with value `a"b""`. -/
theorem claim_C9_witness :
    (∀ c ∈ ("a\"b\"\"".toList), c9Allowed c)
    ∧ parseLine cfgNoBinary (encodeQuoted ("a\"b\"\"".toList)) =
      .ok [Arg.param
        { matcher := anyMatcher,
          charIndex := 0,
          envLineApproximateCharIndex := 0,
          argIndex := 0,
          envArgIndex := 0,
          paramIndex := 0,
          valueText := "a\"b\"\"".toList }] :=
  ⟨by decide, claim_C9 ("a\"b\"\"".toList) (by decide)⟩

/-- Witness for claim C7: the parser with line defaults and no matchers
fails on the line `"x` with a missing-closing-quote error, and that error is
neither `UnmatchedOption` nor `UnmatchedParam`. -/
theorem claim_C7_witness :
    Parser.new.matchers = []
    ∧ parseLine Parser.new ("\"x".toList) = .err errC7w
    ∧ (errC7w.typeId ≠ .unmatchedOption ∧ errC7w.typeId ≠ .unmatchedParam) :=
  ⟨rfl, rfl, claim_C7 Parser.new ("\"x".toList) errC7w rfl rfl⟩

theorem cfcwm_ocbe (p : Parser) (b : Bool) (ps : ParseState) (f : Bool) (m : Matcher) :
    canOptionHaveValueWithFirstCharWithMatcher { p with optionCodeCanBeEmpty := b } ps f m
      = canOptionHaveValueWithFirstCharWithMatcher p ps f m := by
  cases p; rfl

theorem loop_ocbe (p : Parser) (b : Bool) (ps : ParseState) (f : Bool) :
    ∀ (ms : List Matcher) (acc : OptionHasValueBasedOnFirstChar),
    canOptionHaveValueWithFirstCharLoop { p with optionCodeCanBeEmpty := b } ps f ms acc
      = canOptionHaveValueWithFirstCharLoop p ps f ms acc := by
  intro ms
  induction ms with
  | nil => intro acc; rfl
  | cons m rest ih =>
    intro acc
    rw [canOptionHaveValueWithFirstCharLoop, canOptionHaveValueWithFirstCharLoop, cfcwm_ocbe]
    cases h : canOptionHaveValueWithFirstCharWithMatcher p ps f m with
    | ok hv => cases hv <;> simp [ih]
    | err e => rfl
    | panicked => rfl

theorem cfc_ocbe (p : Parser) (b : Bool) (ps : ParseState) (f : Bool) :
    canOptionHaveValueWithFirstChar { p with optionCodeCanBeEmpty := b } ps f
      = canOptionHaveValueWithFirstChar p ps f := by
  rw [canOptionHaveValueWithFirstChar, canOptionHaveValueWithFirstChar]
  have hm : ({ p with optionCodeCanBeEmpty := b } : Parser).matchers = p.matchers := rfl
  rw [hm, loop_ocbe, cfcwm_ocbe]

theorem moa_ocbe (p : Parser) (b : Bool) (ps : ParseState) (hv : Bool) (args : List Arg) :
    matchOptionArg { p with optionCodeCanBeEmpty := b } ps hv args
      = matchOptionArg p ps hv args := by
  cases p; rfl

theorem pwop_ocbe (p : Parser) (b : Bool) (ps : ParseState) (c : EnvChar) (args : List Arg) :
    processWaitOptionOrParam { p with optionCodeCanBeEmpty := b } ps c args
      = processWaitOptionOrParam p ps c args := by
  cases p; rfl

theorem pwov_ocbe (p : Parser) (b : Bool) (ps : ParseState) (c : EnvChar) (args : List Arg) :
    processWaitOptionValue { p with optionCodeCanBeEmpty := b } ps c args
      = processWaitOptionValue p ps c args := by
  cases c with
  | separator => rfl
  | unicode u =>
    have hva : ({ p with optionCodeCanBeEmpty := b } : Parser).optionValueAnnouncerChars
        = p.optionValueAnnouncerChars := rfl
    rw [processWaitOptionValue, processWaitOptionValue]
    dsimp only [EnvChar.tryGetUnicodeNonWhitespace]
    rw [hva, cfc_ocbe]
    cases h : canOptionHaveValueWithFirstChar p ps (p.optionValueAnnouncerChars.contains u) with
    | ok hv =>
      cases hv with
      | must => cases p; rfl
      | possibly => cases p; rfl
      | mustNot =>
        simp only [moa_ocbe]
        cases hmo : matchOptionArg p { ps with currentOptionValueMayBeParam := false } false args with
        | ok out => simp only [bind]; exact pwop_ocbe ..
        | err e => rfl
        | panicked => rfl
    | err e => rfl
    | panicked => rfl

theorem pc_ocbe (p : Parser) (b : Bool) (ps : ParseState) (c : EnvChar) (args : List Arg) :
    processChar { p with optionCodeCanBeEmpty := b } ps c args = processChar p ps c args := by
  rw [processChar, processChar]
  cases h : ps.argParseState
  case waitBinary => cases p; rfl
  case waitOptionOrParam => exact pwop_ocbe ..
  case inParam => cases p; rfl
  case inParamPossibleEndQuote => cases p; rfl
  case inParamEscaped => cases p; rfl
  case inOption =>
    cases h2 : ps.optionParseState
    case inCode => cases p; rfl
    case waitOptionValue => exact pwov_ocbe ..
    case inValue => cases p; rfl
    case inValuePossibleEndQuote => cases p; rfl
    case inValueEscaped => cases p; rfl

theorem fp_ocbe (p : Parser) (b : Bool) (ps : ParseState) (args : List Arg) :
    finaliseParse { p with optionCodeCanBeEmpty := b } ps args = finaliseParse p ps args := by
  rw [finaliseParse, finaliseParse]
  cases h : ps.argParseState
  case waitBinary => rfl
  case waitOptionOrParam => rfl
  case inParam => cases p; rfl
  case inParamPossibleEndQuote => cases p; rfl
  case inParamEscaped => rfl
  case inOption =>
    cases h2 : ps.optionParseState
    case inCode => cases p; rfl
    case waitOptionValue =>
      rw [cfc_ocbe]
      cases hc : canOptionHaveValueWithFirstChar p ps false with
      | ok hv => cases hv <;> simp only [moa_ocbe]
      | err e => rfl
      | panicked => rfl
    case inValue => cases p; rfl
    case inValuePossibleEndQuote => cases p; rfl
    case inValueEscaped => rfl

theorem rc_ocbe (p : Parser) (b : Bool) (line : List Char) :
    ∀ (ps : ParseState) (args : List Arg),
    runChars { p with optionCodeCanBeEmpty := b } ps args line = runChars p ps args line := by
  induction line with
  | nil => intro ps args; rfl
  | cons c rest ih =>
    intro ps args
    rw [runChars, runChars, pc_ocbe]
    cases h : processChar p ps (EnvChar.unicode c) args with
    | ok out =>
      obtain ⟨ps1, args1, more⟩ := out
      cases more with
      | true => simp only [ih]
      | false => rfl
    | err e => rfl
    | panicked => rfl

theorem pl_ocbe (p : Parser) (b : Bool) (line : List Char) :
    parseLine { p with optionCodeCanBeEmpty := b } line = parseLine p line := by
  rw [parseLine, parseLine]
  have hfb : ({ p with optionCodeCanBeEmpty := b } : Parser).firstArgIsBinary
      = p.firstArgIsBinary := rfl
  have hmc : ({ p with optionCodeCanBeEmpty := b } : Parser).multiCharOptionCodeRequiresDoubleAnnouncer
      = p.multiCharOptionCodeRequiresDoubleAnnouncer := rfl
  rw [hfb, hmc, rc_ocbe]
  cases h : runChars p (ParseState.new line p.firstArgIsBinary
      p.multiCharOptionCodeRequiresDoubleAnnouncer) [] line with
  | ok out =>
    obtain ⟨ps, args⟩ := out
    simp only [bind]
    rw [fp_ocbe]
  | err e => rfl
  | panicked => rfl

/-- Claim C10: parse results are independent of the `option_code_can_be_empty`
setting — two `parse_line` runs that differ only in that flag return
identical results — and a standalone option announcer character is accepted
as an Option with an empty code even when the flag is false. -/
theorem claim_C10 :
    (∀ (p : Parser) (b : Bool) (line : List Char),
      parseLine { p with optionCodeCanBeEmpty := b } line = parseLine p line)
    ∧ cfgNoBinary.optionCodeCanBeEmpty = false
    ∧ resultViews (parseLine cfgNoBinary ['-']) = some [.option [] none 0] :=
  ⟨pl_ocbe, rfl, rfl⟩

/-- Claim C1: the claim states that when the option value announcer was
ambiguous (whitespace) and a candidate `IfPossible` matcher accepts the
code, the verdict is `Possibly` for a non-announcer first character and
`MustNot` for an announcer first character. The code disagrees: in the
parse of `-b x` (value announcer: the whitespace at index 2), the state
reached when the first value character `x` is examined gives the matcher
verdict `Must`, because `option_value_announcer_is_ambiguous` is never set;
and in the parse of `-b -c`, where the first character of the prospective
value is the option announcer `-`, the value `-c` is attached to option `b`
instead of the `MustNot` verdict splitting it off. -/
theorem claim_C1 :
    (match runChars cfgC1 (ParseState.new ("-b x".toList) false false) [] ("-b ".toList) with
      | .ok (ps, _) => canOptionHaveValueWithFirstCharWithMatcher cfgC1 ps false matcherB
      | _ => .panicked)
      = .ok .must
    ∧ resultViews (parseLine cfgC1 ("-b -c".toList))
      = some [.option ['b'] (some ("-c".toList)) 0] := by
  constructor <;> rfl

/-- Claim C2: at option value completion the parser first attempts to match
(code, value, has-value = true); if that fails and the value was only
Possibly attached, it retries (code, has-value = false); if the retry
succeeds it emits the Option with no value and then runs the full Param
classification on the text that had been tentatively captured as the value;
if neither attempt matches any matcher, parsing fails with
`UnmatchedOption`. The embedded `matchOptionArg` coincides with the
spec-modelled contract `specValueCompletion` on every input. -/
theorem claim_C2 (p : Parser) (ps : ParseState) (args : List Arg) :
    matchOptionArg p ps true args = specValueCompletion p ps args := rfl

/-- Claim C3: with `multi_char_option_code_requires_double_announcer = true`
the claim expects `-ab` to fail with `OptionCodeMissingDoubleAnnouncer`,
`-a` to be accepted, and `--ab` to be accepted with its code preserved. The
code does the opposite on all three: `-ab` is accepted with code `ab`, `-a`
fails with `OptionCodeMissingDoubleAnnouncer`, and `--ab` is accepted with
an empty code. -/
theorem claim_C3 :
    resultViews (parseLine cfgC3 ("-ab".toList)) = some [.option ("ab".toList) none 0]
    ∧ resultErrorId (parseLine cfgC3 ("-a".toList)) = some .optionCodeMissingDoubleAnnouncer
    ∧ resultViews (parseLine cfgC3 ("--ab".toList)) = some [.option [] none 0] := by
  refine ⟨rfl, rfl, rfl⟩

/-- Claim C4: for a matcher with `option_has_value = Always` and
`option_value_can_start_with_option_announcer = false` the claim expects a
prospective value starting with the option announcer `-` to be a hard
`OptionValueCannotStartWithOptionAnnouncer` error, and any other first
character to give verdict `Must`. The code instead tests membership in
`option_value_announcer_chars`: `-c -x` succeeds with value `-x`, while
with `=` configured as an additional value announcer, `-c =x` fails with
`OptionValueCannotStartWithOptionAnnouncer` although `=` is not an option
announcer. -/
theorem claim_C4 :
    resultViews (parseLine cfgC4 ("-c -x".toList)) = some [.option ['c'] (some ("-x".toList)) 0]
    ∧ resultErrorId (parseLine cfgC4e ("-c =x".toList))
      = some .optionValueCannotStartWithOptionAnnouncer := by
  refine ⟨rfl, rfl⟩

/-- Claim C5: the claim states that `parse_line` always returns a list of
arguments or a single `ParseError`, with no reachable panic. The code
refutes this twice: with matchers `[Never, Always]` the line `-a x` reaches
the `unreachable!` panic in the `Never` arm of
`can_option_have_value_with_first_char_with_matcher`, and with no matchers
the line `-é` panics in `set_option_code`, which byte-slices the line with
character-count indices that fall inside the two-byte encoding of `é`. -/
theorem claim_C5 :
    parseLine cfgC5 ("-a x".toList) = .panicked
    ∧ parseLine cfgNoBinary ['-', Char.ofNat 233] = .panicked := by
  refine ⟨rfl, rfl⟩

/-- Claim C6: parsing `binary param1 param2 -a -b param3` with line defaults
(no matchers, first argument is the binary) yields exactly six arguments:
Binary `binary` at index 0, Params `param1` and `param2` at indices 1 and 2,
flag Options `a` and `b` at indices 3 and 4, and Param `param3` at index 5. -/
theorem claim_C6 :
    resultViews (parseLine Parser.new c6Line) =
      some [.binary ("binary".toList) 0,
        .param ("param1".toList) 1,
        .param ("param2".toList) 2,
        .option ['a'] none 3,
        .option ['b'] none 4,
        .param ("param3".toList) 5] := rfl

/-- Claim C8: the claim states the display form
`(<message>) [l:<char> a:<arg> o:<idx> c:"<code>"]` for option errors and a
`p:<idx> t:"<text>"]` tail (with the parameter index) for param errors. The
code instead renders `( [l:2 a:0 o:0 c:a"])` for the unmatched option `-a`
— no message text, no opening quote, outer parentheses around the bracket
text — and `( [l:4 a:1 p:1 t:x"])` for the unmatched param `x` after option
`-a`, where `p:` shows `option_count` (1) although the parameter index of
`x` is 0. Both differ from the spec-modelled form. -/
theorem claim_C8 :
    parseLine cfgC8o ("-a".toList) = .err errC8o
    ∧ errC8o.display = ("( [l:2 a:0 o:0 c:a".toList ++ [dq] ++ "])".toList)
    ∧ errC8o.display ≠ errC8o.specClaimedDisplay
    ∧ parseLine cfgC8p ("-a x".toList) = .err errC8p
    ∧ errC8p.display = ("( [l:4 a:1 p:1 t:x".toList ++ [dq] ++ "])".toList)
    ∧ errC8p.paramIndex = some 1
    ∧ errC8p.display ≠ errC8p.specClaimedDisplay := by
  refine ⟨rfl, rfl, by decide, rfl, rfl, rfl, by decide⟩

end Parmacl
